import Mathlib

/-!
Verification development for the midnight fetcher mining client.

The definitions below are a shallow embedding of the TypeScript sources:
the mining orchestrator (`MiningOrchestrator`), and the dev-fee manager
(`src/lib/devfee/manager.ts`).  JavaScript `Set`s are modelled as duplicate
free lists in insertion order, `Map`s as association lists, and the
asynchronous HTTP / hash-engine calls as explicit outcome parameters.
External side effects that do not change orchestrator state (killing hash
workers, scheduling timers, ...) are recorded in an effect trace.
-/

namespace Miner

/-- Insertion into a JavaScript `Set`: a no-op when the element is present,
otherwise appended (JS sets preserve insertion order). -/
def setAdd {α : Type} [BEq α] (x : α) (l : List α) : List α :=
  if l.contains x then l else l ++ [x]

/-- Deletion from a JavaScript `Set`. -/
def setDel {α : Type} [BEq α] (x : α) (l : List α) : List α :=
  l.filter (fun y => !(y == x))

/-- Lookup in a JavaScript `Map` modelled as an association list. -/
def mapGet {β : Type} : List (String × β) → String → Option β
  | [], _ => none
  | p :: rest, k => if p.1 == k then some p.2 else mapGet rest k

/-- `map.set(k, v)` on an association list: updates the (unique) existing
entry in place, else appends, as a JavaScript `Map` does. -/
def mapPut {β : Type} : List (String × β) → String → β → List (String × β)
  | [], k, v => [(k, v)]
  | p :: rest, k, v =>
    if p.1 == k then (k, v) :: rest else p :: mapPut rest k v

/-- `map.delete(k)` on an association list. -/
def mapDel {β : Type} (m : List (String × β)) (k : String) :
    List (String × β) :=
  m.filter (fun p => !(p.1 == k))

/-- Whether `sub` occurs at the front of `l` (character lists). -/
def leadsWith : List Char → List Char → Bool
  | [], _ => true
  | _ :: _, [] => false
  | a :: as, b :: bs => a == b && leadsWith as bs

/-- Whether `sub` occurs anywhere inside `l` (character lists). -/
def subSeq (sub : List Char) : List Char → Bool
  | [] => sub.isEmpty
  | b :: bs => leadsWith sub (b :: bs) || subSeq sub bs

/-- JavaScript `s.includes(sub)` on strings. -/
def hasSub (s sub : String) : Bool :=
  subSeq sub.toList s.toList

/-- JavaScript `s.startsWith(pre)`. -/
def strStarts (s pre : String) : Bool :=
  leadsWith pre.toList s.toList

/-- JavaScript `s.toLowerCase()` (ASCII is all that the sources compare). -/
def strLower (s : String) : String :=
  String.mk (s.toList.map Char.toLower)

/-- JavaScript `a || b || c` over possibly-missing strings: the first operand
that is neither `undefined` nor the empty string, else `""`. -/
def firstTruthy : List (Option String) → String
  | [] => ""
  | o :: rest =>
    match o with
    | some s => if s.isEmpty then firstTruthy rest else s
    | none => firstTruthy rest

/-! ## Data model (from `types` and the orchestrator) -/

/-- The challenge descriptor held by the orchestrator (mutable fields only;
`starts_at` and lifecycle codes never reach the mining loop). -/
structure Challenge where
  challenge_id : String
  difficulty : String
  latest_submission : String
  no_pre_mine : String
  no_pre_mine_hour : String
deriving Repr, DecidableEq

/-- A wallet-derived address (`DerivedAddress` in the wallet manager). -/
structure DerivedAddress where
  index : Int
  bech32 : String
  publicKeyHex : String
  registered : Bool
deriving Repr, DecidableEq, Inhabited

/-- Worker status, from `WorkerStats.status`. -/
inductive WStatus
  | idle
  | mining
  | submitting
  | completed
deriving Repr, DecidableEq

/-- The per-worker statistics fields the orchestrator logic branches on
(counters used only for display are omitted). -/
structure WStat where
  addressIndex : Int
  status : WStatus
  solutionsFound : Nat
deriving Repr, DecidableEq

/-- A persisted receipt line (`receiptsLogger.logReceipt`). -/
structure Receipt where
  address : String
  addressIndex : Int
  challenge_id : String
  nonce : String
  hash : String
  isDevFee : Bool
deriving Repr, DecidableEq

/-- A persisted error line (`receiptsLogger.logError`). -/
structure ErrorEntry where
  address : String
  addressIndex : Int
  challenge_id : String
  nonce : String
  hash : String
  error : String
deriving Repr, DecidableEq

/-! ## Dev-fee manager (`src/lib/devfee/manager.ts`) -/

/-- One pre-fetched dev-fee address (`DevFeeAddress`). -/
structure DevFeeAddress where
  address : String
  addressIndex : Int
  fetchedAt : Nat
  usedCount : Nat
deriving Repr, DecidableEq

/-- The dev-fee cache file contents (`DevFeeCache`).  TypeScript fields that
may be `undefined` are wrapped in `Option`; `currentChallengeId` may be
`undefined`, `null`, or a string, hence the nested `Option`. -/
structure DevFeeCache where
  currentAddress : Option DevFeeAddress
  totalDevFeeSolutions : Nat
  lastFetchError : Option String
  addressPool : List DevFeeAddress
  poolFetchedAt : Option Nat
  enabled : Option Bool
  currentChallengeId : Option (Option String)
  solutionsThisChallenge : Option Nat
deriving Repr, DecidableEq

/-- The dev-fee configuration (`DevFeeConfig`; the cache-file path is not
part of the logic). -/
structure DevFeeConfig where
  enabled : Bool
  apiUrl : String
  ratio : Nat
deriving Repr, DecidableEq

/-- The dev-fee manager: its configuration and its cache. -/
structure DevFeeManagerState where
  config : DevFeeConfig
  cache : DevFeeCache
deriving Repr, DecidableEq

/-- `DevFeeManager.isEnabled`. -/
def isEnabled (d : DevFeeManagerState) : Bool :=
  d.config.enabled && d.config.apiUrl.length > 0

/-- `DevFeeManager.getRatio`. -/
def getRatio (d : DevFeeManagerState) : Nat :=
  d.config.ratio

/-- `DevFeeManager.hasValidAddressPool`. -/
def hasValidAddressPool (d : DevFeeManagerState) : Bool :=
  d.cache.addressPool.length == 10

/-- `DevFeeManager.recordDevFeeSolution`. -/
def recordDevFeeSolution (d : DevFeeManagerState) : DevFeeManagerState :=
  let c := d.cache
  let c := { c with totalDevFeeSolutions := c.totalDevFeeSolutions + 1 }
  let c := { c with
    solutionsThisChallenge := some (c.solutionsThisChallenge.getD 0 + 1) }
  let c := { c with
    currentAddress :=
      c.currentAddress.map (fun a => { a with usedCount := a.usedCount + 1 }) }
  { d with cache := c }

/-- `DevFeeManager.syncWithReceipts`. -/
def syncWithReceipts (d : DevFeeManagerState) (actualDevFeeCount : Nat) :
    DevFeeManagerState :=
  { d with cache := { d.cache with totalDevFeeSolutions := actualDevFeeCount } }

/-- `DevFeeManager.getTotalDevFeeSolutions`. -/
def getTotalDevFeeSolutions (d : DevFeeManagerState) : Nat :=
  d.cache.totalDevFeeSolutions

/-- One entry of the dev-fee API response `addresses` array. -/
structure ApiDevAddr where
  devAddress : String
  devAddressIndex : Int
  registered : Bool
deriving Repr, DecidableEq

/-- Outcome of the dev-fee pool HTTP POST: resolution carries the optional
`addresses` array of the JSON body, rejection the error message. -/
inductive PoolFetchOutcome
  | resolved (addresses : Option (List ApiDevAddr))
  | rejected (message : String)
deriving Repr, DecidableEq

/-- The address validation of `prefetchAddressPool` and of the orchestrator:
the known mainnet/testnet prefixes. -/
def validDevAddr (a : DevFeeAddress) : Bool :=
  strStarts a.address "tnight1" || strStarts a.address "addr1"

/-- The validation loop of `prefetchAddressPool` from position `i`: the
index of the first address failing validation, if any. -/
def firstInvalidIdxFrom (i : Nat) : List DevFeeAddress → Option Nat
  | [] => none
  | a :: rest =>
    if !(validDevAddr a) then some i else firstInvalidIdxFrom (i + 1) rest

/-- The index of the first address failing validation, if any (the
validation loop of `prefetchAddressPool` exits at the first failure). -/
def firstInvalidIdx (l : List DevFeeAddress) : Option Nat :=
  firstInvalidIdxFrom 0 l

/-- The cache updates shared by all failure exits of `prefetchAddressPool`. -/
def poolFetchFail (d : DevFeeManagerState) (msg : String) :
    DevFeeManagerState :=
  { d with cache := { d.cache with
      addressPool := [],
      poolFetchedAt := none,
      lastFetchError := some msg } }

/-- `DevFeeManager.prefetchAddressPool`, with the HTTP call's outcome and
`Date.now()` passed explicitly.  Returns the boolean result and the
manager state after the call. -/
def prefetchAddressPool (d : DevFeeManagerState) (now : Nat)
    (outcome : PoolFetchOutcome) : Bool × DevFeeManagerState :=
  if !(isEnabled d) then (false, d)
  else
    match outcome with
    | .rejected msg => (false, poolFetchFail d msg)
    | .resolved addressesData =>
      match addressesData with
      | none => (false, poolFetchFail d "API returned 0/10 addresses")
      | some l =>
        if l.length != 10 then
          (false, poolFetchFail d
            ("API returned " ++ toString l.length ++ "/10 addresses"))
        else
          let addresses : List DevFeeAddress := l.map (fun a =>
            { address := a.devAddress,
              addressIndex := a.devAddressIndex,
              fetchedAt := now,
              usedCount := 0 })
          match firstInvalidIdx addresses with
          | some i =>
            (false, poolFetchFail d
              ("Invalid address format at index " ++ toString i))
          | none =>
            (true, { d with cache := { d.cache with
                addressPool := addresses,
                poolFetchedAt := some now,
                lastFetchError := none } })

/-- `DevFeeManager.getDevFeeAddress`: either an error (thrown) or the chosen
address together with the updated manager state. -/
def getDevFeeAddress (d : DevFeeManagerState) (currentChallengeId : String) :
    Except String (String × DevFeeManagerState) :=
  if !(hasValidAddressPool d) then
    .error "No valid address pool available - dev fee disabled"
  else
    -- migration of possibly-undefined cache fields
    let c := d.cache
    let c := if c.solutionsThisChallenge.isNone then
      { c with solutionsThisChallenge := some 0 } else c
    let c := if c.currentChallengeId.isNone then
      { c with currentChallengeId := some none } else c
    -- reset when the challenge changed
    let c := if c.currentChallengeId != some (some currentChallengeId) then
      { c with currentChallengeId := some (some currentChallengeId),
               solutionsThisChallenge := some 0 } else c
    let poolIndex := c.solutionsThisChallenge.getD 0 % 10
    match c.addressPool.get? poolIndex with
    | none => .error ("No address at pool index " ++ toString poolIndex)
    | some a => .ok (a.address, { d with cache := c })

end Miner

namespace Miner

/-! ## Spec-modelled collaborators

The difficulty predicate (`./difficulty`) and the receipts store
(`@/lib/storage/receipts-logger`) are imported by the orchestrator but their
implementation files are not part of the sources at hand; they are modelled
from the specification. -/

/-- Numeric value of a hexadecimal digit (0 for other characters). -/
def hexVal (c : Char) : Nat :=
  if '0' ≤ c ∧ c ≤ '9' then c.toNat - '0'.toNat
  else if 'a' ≤ c ∧ c ≤ 'f' then c.toNat - 'a'.toNat + 10
  else if 'A' ≤ c ∧ c ≤ 'F' then c.toNat - 'A'.toNat + 10
  else 0

/-- Modelled from the spec: `matches_difficulty(hash, difficulty)` of the
difficulty module (not under the sources at hand).  Hash and difficulty are
equal-length hex strings read as big-endian byte sequences; the hash is
accepted iff `(hash OR difficulty) == difficulty`, i.e. every bit set in the
hash is also set in the difficulty mask (checked per hex digit, which is
equivalent bytewise). -/
def matchesDifficulty (hash difficulty : String) : Bool :=
  hash.length == difficulty.length &&
  (hash.toList.zip difficulty.toList).all
    (fun p => (hexVal p.1 ||| hexVal p.2) == hexVal p.2)

/-- Modelled from the spec: `recent_receipts(n)` of the receipts store
(§4.4), i.e. the last `n` entries of the append-only receipts log; the
store implementation is not under the sources at hand. -/
def getRecentReceipts (receipts : List Receipt) (n : Nat) : List Receipt :=
  receipts.drop (receipts.length - n)

/-! ## Orchestrator state -/

/-- External actions of the orchestrator that do not change the modelled
state; they are recorded as a trace. -/
inductive Effect
  | killWorkers
  | initRom (noPreMine : String)
  | loadWallet
  | registerAddresses
  | prefetchPool
  | pollLoopStarted
  | hourlyRestartScheduled
  | watchdogStarted
  | statusEmitted
  | startMiningCalled
deriving Repr, DecidableEq

/-- The orchestrator fields the verified operations read or write
(`MiningOrchestrator`; display-only counters such as CPU readings and hash
rates are omitted).  The receipts and error streams of the receipts logger
are carried here as well, as are the dev-fee manager singleton's state. -/
structure OrchState where
  isRunning : Bool
  isMining : Bool
  isDevFeeMining : Bool
  walletLoaded : Bool
  currentChallengeId : Option String
  currentChallenge : Option Challenge
  addresses : List DerivedAddress
  solutionsFound : Nat
  userSolutionsCount : Nat
  startTime : Option Nat
  submittedSolutions : List String
  solvedAddressChallenges : List (String × List String)
  submittingAddresses : List String
  pausedAddresses : List String
  stoppedWorkers : List Nat
  addressSubmissionFailures : List (String × Nat)
  workerStats : List (Nat × WStat)
  addressesProcessedCurrentChallenge : List Int
  receipts : List Receipt
  errors : List ErrorEntry
  devFee : DevFeeManagerState
deriving Repr, DecidableEq

/-- `solvedAddressChallenges.get(addr)?.has(ch)`. -/
def solvedHas (m : List (String × List String)) (a ch : String) : Bool :=
  ((mapGet m a).getD []).contains ch

/-- The marking idiom used throughout the orchestrator:
`if (!map.has(a)) map.set(a, new Set()); map.get(a)!.add(ch)`. -/
def solvedAdd (m : List (String × List String)) (a ch : String) :
    List (String × List String) :=
  let m := if (mapGet m a).isSome then m else mapPut m a []
  mapPut m a (setAdd ch ((mapGet m a).getD []))

/-- The removal at the difficulty-change discard:
`solvedSet = map.get(addr); if (solvedSet) solvedSet.delete(ch)`. -/
def solvedDelCh (m : List (String × List String)) (a ch : String) :
    List (String × List String) :=
  match mapGet m a with
  | some s => mapPut m a (setDel ch s)
  | none => m

/-! ## Worker grouping (`getMinWorkersPerAddress`, `calculateWorkerGroups`) -/

/-- The worker distribution strategy (`workerGroupingMode`). -/
inductive GroupingMode
  | auto
  | allOnOne
  | grouped
deriving Repr, DecidableEq

/-- `MiningOrchestrator.getMinWorkersPerAddress` (the difficulty argument is
unused by the source body and omitted here). -/
def getMinWorkersPerAddress (mode : GroupingMode) (workersPerAddress : Nat)
    (totalWorkers : Nat) : Nat :=
  match mode with
  | .grouped => workersPerAddress
  | .allOnOne => totalWorkers
  | .auto =>
    if totalWorkers ≤ 4 then totalWorkers
    else max 3 (min 5 (totalWorkers / 4))

/-- One worker group: an address and the worker ids assigned to it. -/
structure WorkerGroup where
  address : DerivedAddress
  workerIds : List Nat
deriving Repr, DecidableEq

/-- The group-building loop of `calculateWorkerGroups`: `n` remaining
groups, `i` the current group index, `cnt` the running `workerIdCounter`. -/
def buildGroups (addresses : List DerivedAddress) (base extra : Nat) :
    Nat → Nat → Nat → List WorkerGroup
  | 0, _, _ => []
  | n + 1, i, cnt =>
    let sz := base + (if i < extra then 1 else 0)
    { address := addresses.getD i default,
      workerIds := (List.range sz).map (fun j => cnt + j) } ::
      buildGroups addresses base extra n (i + 1) (cnt + sz)

/-- `MiningOrchestrator.calculateWorkerGroups`.  `addresses.getD _ default`
renders the JavaScript indexing `addresses[i]`, which is always in bounds
for the inputs the orchestrator passes (nonempty address batches). -/
def calculateWorkerGroups (mode : GroupingMode) (workersPerAddress : Nat)
    (addresses : List DerivedAddress) (availableWorkers : Nat) :
    List WorkerGroup :=
  let minWorkersPerAddress :=
    getMinWorkersPerAddress mode workersPerAddress availableWorkers
  let maxGroups := availableWorkers / minWorkersPerAddress
  let actualGroupCount := min maxGroups addresses.length
  if actualGroupCount == 0 then
    [{ address := addresses.getD 0 default,
       workerIds := List.range availableWorkers }]
  else
    let baseWorkersPerGroup := availableWorkers / actualGroupCount
    let extraWorkers := availableWorkers % actualGroupCount
    buildGroups addresses baseWorkersPerGroup extraWorkers actualGroupCount 0 0

/-! ## Dev-fee scheduling (`shouldMineDevFeeNow`) -/

/-- `MiningOrchestrator.shouldMineDevFeeNow`. -/
def shouldMineDevFeeNow (s : OrchState) : Bool :=
  if !(isEnabled s.devFee) || !(hasValidAddressPool s.devFee) then false
  else if s.isDevFeeMining then false
  else
    let ratio := getRatio s.devFee
    let userSolutionsNeeded := ratio - 1
    let lastReceipts := getRecentReceipts s.receipts ratio
    let hasDevFeeInLastN := lastReceipts.any (fun r => r.isDevFee)
    !hasDevFeeInLastN && lastReceipts.length ≥ userSolutionsNeeded

/-! ## Nonce enumeration in `mineForAddress` -/

/-- `NONCE_RANGE_SIZE` (one billion nonces per worker). -/
def NONCE_RANGE_SIZE : Nat := 1000000000

/-- `nonceStart = workerId * NONCE_RANGE_SIZE`. -/
def nonceStart (workerId : Nat) : Nat := workerId * NONCE_RANGE_SIZE

/-- `nonceEnd = nonceStart + NONCE_RANGE_SIZE`. -/
def nonceEnd (workerId : Nat) : Nat := nonceStart workerId + NONCE_RANGE_SIZE

/-- One iteration of the worker's `while` loop as far as nonce enumeration
is concerned: either the pause branch (sleep and loop again, producing no
nonces) or a pass through the batch-generation `for` loop, where `cut`
bounds how many nonces are produced before one of the in-loop exits
(stopped worker, cleared flags, pause) fires; `cut ≥ BATCH_SIZE` is a full
batch. -/
inductive LoopTick
  | paused
  | gen (cut : Nat)
deriving Repr, DecidableEq

/-- The nonces enumerated by `mineForAddress`'s mining loop, starting at
`cur`, for a given trace of loop iterations.  The `while` guard requires
`cur < nonceEnd`; the `for` guard allows `i < BATCH_SIZE` and
`cur + i < nonceEnd`; an empty generated batch exits the loop. -/
def mineLoopNonces (workerId batchSize : Nat) :
    Nat → List LoopTick → List Nat
  | _, [] => []
  | cur, .paused :: rest =>
    if cur < nonceEnd workerId then
      mineLoopNonces workerId batchSize cur rest
    else []
  | cur, .gen cut :: rest =>
    if cur < nonceEnd workerId then
      let len := min (min batchSize (nonceEnd workerId - cur)) cut
      if len = 0 then []
      else
        (List.range len).map (fun i => cur + i) ++
          mineLoopNonces workerId batchSize (cur + len) rest
    else []

/-- The full nonce enumeration of worker `workerId`. -/
def workerNonces (workerId batchSize : Nat) (ticks : List LoopTick) :
    List Nat :=
  mineLoopNonces workerId batchSize (nonceStart workerId) ticks

end Miner

namespace Miner

/-! ## Submission protocol (`submitSolution`) -/

/-- The JSON body of an HTTP response, restricted to the fields the
orchestrator reads (`data?.message`, `data?.error`). -/
structure HttpData where
  message : Option String
  error : Option String
deriving Repr, DecidableEq

/-- An HTTP response as seen through axios. -/
structure HttpResponse where
  status : Nat
  statusText : String
  data : Option HttpData
deriving Repr, DecidableEq

/-- The outcome of the axios POST in `submitSolution`.  With
`validateStatus: status < 500`, responses below 500 resolve; 5xx responses
reject with the response attached; network errors and timeouts reject with
no response and an optional error code (such as `ECONNABORTED`). -/
inductive AxiosOutcome
  | resolved (r : HttpResponse)
  | rejected (message : String) (code : Option String)
      (response : Option HttpResponse)
deriving Repr, DecidableEq

/-- A caught JavaScript error, with the axios fields `submitSolution`
inspects. -/
structure JsError where
  message : String
  code : Option String
  response : Option HttpResponse
deriving Repr, DecidableEq

/-- Whether `submitSolution` returned normally or threw. -/
inductive SubmitResult
  | normal
  | thrown (msg : String)
deriving Repr, DecidableEq

/-- `error.response?.data?.message || error.response?.data?.error ||
error.message || ''` from the catch block. -/
def errMsgOf (e : JsError) : String :=
  firstTruthy
    [(e.response.bind (fun r => r.data)).bind (fun d => d.message),
     (e.response.bind (fun r => r.data)).bind (fun d => d.error),
     some e.message]

/-- The duplicate-solution classification of `submitSolution`'s catch
block. -/
def isSolutionAlreadyExists (e : JsError) (errorMessage : String) : Bool :=
  hasSub (strLower errorMessage) "already exists" ||
  hasSub (strLower errorMessage) "solution already" ||
  (e.response.map (fun r => r.status) == some 400 &&
    hasSub (strLower errorMessage) "duplicate")

/-- The unregistered-address classification of `submitSolution`'s catch
block. -/
def isNotRegisteredError (e : JsError) (errorMessage : String) : Bool :=
  hasSub (strLower errorMessage) "not registered" ||
  hasSub (strLower errorMessage) "unregistered" ||
  e.response.map (fun r => r.status) == some 403

/-- The timeout classification of `submitSolution`'s catch block. -/
def isTimeoutError (e : JsError) : Bool :=
  e.code == some "ECONNABORTED" || hasSub (strLower e.message) "timeout"

/-- The `try` part of `submitSolution`: the POST plus the success
bookkeeping (lines up to the receipt write).  Returns the state and, on the
failure paths, the caught error. -/
def submitTry (s : OrchState) (addr : DerivedAddress)
    (challengeId nonce hash : String) (isDevFee : Bool)
    (outcome : AxiosOutcome) : OrchState × Option JsError :=
  match outcome with
  | .rejected msg code resp => (s, some { message := msg, code := code, response := resp })
  | .resolved r =>
    if 200 ≤ r.status ∧ r.status < 300 then
      let s := { s with solutionsFound := s.solutionsFound + 1 }
      let s :=
        if isDevFee then { s with devFee := recordDevFeeSolution s.devFee }
        else { s with userSolutionsCount := s.userSolutionsCount + 1 }
      let s := { s with
        receipts := s.receipts ++
          [{ address := addr.bech32, addressIndex := addr.index,
             challenge_id := challengeId, nonce := nonce, hash := hash,
             isDevFee := isDevFee }] }
      (s, none)
    else
      (s, some { message := "Server rejected solution: " ++ toString r.status
                   ++ " " ++ r.statusText,
                 code := none, response := none })

/-- The duplicate-solution branch of the catch block: mark the pair solved,
log the benign duplicate, and return normally. -/
def dupBranch (s : OrchState) (addr : DerivedAddress)
    (challengeId nonce hash : String) (_e : JsError) :
    OrchState × SubmitResult :=
  let s := { s with
    solvedAddressChallenges :=
      solvedAdd s.solvedAddressChallenges addr.bech32 challengeId }
  let s := { s with
    errors := s.errors ++
      [{ address := addr.bech32, addressIndex := addr.index,
         challenge_id := challengeId, nonce := nonce, hash := hash,
         error := "Duplicate submission - solution already exists (another worker succeeded)" }] }
  (s, .normal)

/-- The tail of the catch block (after the duplicate and registration
checks): timeout and generic errors are logged and re-thrown. -/
def catchTail (s : OrchState) (addr : DerivedAddress)
    (challengeId nonce hash : String) (e : JsError) :
    OrchState × SubmitResult :=
  if isTimeoutError e then
    let s := { s with
      errors := s.errors ++
        [{ address := addr.bech32, addressIndex := addr.index,
           challenge_id := challengeId, nonce := nonce, hash := hash,
           error := "Submission timeout after 60s - uncertain state (may have been accepted by server)" }] }
    (s, .thrown e.message)
  else
    let s := { s with
      errors := s.errors ++
        [{ address := addr.bech32, addressIndex := addr.index,
           challenge_id := challengeId, nonce := nonce, hash := hash,
           error := firstTruthy
             [(e.response.bind (fun r => r.data)).bind (fun d => d.message),
              some e.message] }] }
    (s, .thrown e.message)

/-- `registerAddress`'s effect on orchestrator state: the address is marked
registered (the HTTP signing round-trip itself carries no orchestrator
state). -/
def registerAddressMark (s : OrchState) (addr : DerivedAddress) : OrchState :=
  { s with addresses := s.addresses.map (fun a =>
      if a.index == addr.index then { a with registered := true } else a) }

/-- `MiningOrchestrator.submitSolution`.  `outcome` is the first POST's
axios outcome; when the unregistered-address auto-retry fires,
`regSucceeds`/`regErrMsg` give the registration attempt's result and
`retryOutcome` the second POST's outcome (the retry runs with
`isRetryAfterRegistration = true`, so its catch block skips the
registration branch). -/
def submitSolution (s : OrchState) (addr : DerivedAddress)
    (challengeId nonce hash : String) (isDevFee : Bool)
    (outcome retryOutcome : AxiosOutcome) (regSucceeds : Bool)
    (regErrMsg : String) : OrchState × SubmitResult :=
  if !s.walletLoaded then (s, .normal)
  else
    match submitTry s addr challengeId nonce hash isDevFee outcome with
    | (s1, none) => (s1, .normal)
    | (s1, some e) =>
      let errorMessage := errMsgOf e
      if isSolutionAlreadyExists e errorMessage then
        dupBranch s1 addr challengeId nonce hash e
      else if isNotRegisteredError e errorMessage then
        if regSucceeds then
          let s2 := registerAddressMark s1 addr
          match submitTry s2 addr challengeId nonce hash isDevFee retryOutcome with
          | (s3, none) => (s3, .normal)
          | (s3, some e2) =>
            let em2 := errMsgOf e2
            if isSolutionAlreadyExists e2 em2 then
              dupBranch s3 addr challengeId nonce hash e2
            else
              catchTail s3 addr challengeId nonce hash e2
        else
          let s2 := { s1 with
            errors := s1.errors ++
              [{ address := addr.bech32, addressIndex := addr.index,
                 challenge_id := challengeId, nonce := nonce, hash := hash,
                 error := "Auto-registration failed: " ++ regErrMsg
                   ++ ". Original error: " ++ errorMessage }] }
          (s2, .thrown regErrMsg)
      else
        catchTail s1 addr challengeId nonce hash e

end Miner

namespace Miner

/-! ## The solution-found step of `mineForAddress` -/

/-- How the per-hash scan step resumes: `nextHash` corresponds to the
`continue` statements (the worker keeps mining), `exitWorker` to the
`return` statements (the worker function ends). -/
inductive StepResult
  | nextHash
  | exitWorker
deriving Repr, DecidableEq

/-- `workerStats.get(wid)` update when present. -/
def wstatsUpdate (m : List (Nat × WStat)) (wid : Nat) (f : WStat → WStat) :
    List (Nat × WStat) :=
  m.map (fun p => if p.1 == wid then (p.1, f p.2) else p)

/-- The sibling-stopping loop: every other worker currently `mining` the
same address index is added to `stoppedWorkers`. -/
def stopSiblings (m : List (Nat × WStat)) (workerId : Nat)
    (addressIndex : Int) (stopped : List Nat) : List Nat :=
  m.foldl (fun acc p =>
    if p.1 != workerId && p.2.addressIndex == addressIndex &&
        p.2.status == WStatus.mining then
      setAdd p.1 acc
    else acc) stopped

/-- The submit step of the scan (the `try`/`catch`/`finally` around
`submitSolution` in `mineForAddress`): on success mark the pair solved,
release the locks, clear the failure counter, and exit the worker; on
failure count the failure, release the locks, remove the hash from the
submitted set, clear the stopped workers, and continue mining. -/
def submitPhase (s : OrchState) (workerId : Nat) (addr : DerivedAddress)
    (challengeId nonce hash : String) (isDevFee : Bool)
    (submissionKey : String) (outcome retryOutcome : AxiosOutcome)
    (regSucceeds : Bool) (regErrMsg : String) : OrchState × StepResult :=
  match submitSolution s addr challengeId nonce hash isDevFee
      outcome retryOutcome regSucceeds regErrMsg with
  | (s1, .normal) =>
    let s2 := { s1 with
      solvedAddressChallenges :=
        solvedAdd s1.solvedAddressChallenges addr.bech32 challengeId }
    let s3 := { s2 with
      submittingAddresses :=
        setDel submissionKey s2.submittingAddresses }
    let s4 := { s3 with
      pausedAddresses := setDel submissionKey s3.pausedAddresses,
      addressSubmissionFailures :=
        mapDel s3.addressSubmissionFailures submissionKey }
    let s5 := { s4 with
      workerStats := wstatsUpdate s4.workerStats workerId (fun w =>
        { w with status := .completed }) }
    (s5, .exitWorker)
  | (s1, .thrown _) =>
    let currentFailures :=
      (mapGet s1.addressSubmissionFailures submissionKey).getD 0
    let s2 := { s1 with
      addressSubmissionFailures :=
        mapPut s1.addressSubmissionFailures submissionKey
          (currentFailures + 1) }
    let s3 := { s2 with
      submittingAddresses :=
        setDel submissionKey s2.submittingAddresses }
    let s4 := { s3 with
      pausedAddresses := setDel submissionKey s3.pausedAddresses,
      submittedSolutions := setDel hash s3.submittedSolutions,
      stoppedWorkers := [] }
    (s4, .nextHash)

/-- The body of `mineForAddress`'s result scan for one hash that the batch
produced (the code inside `for (let i = 0; ...)` guarded by
`matchesDifficulty`).  `challengeId` and `challenge` are the values frozen
at worker start (the deep copy); `serverHash` is the hash-engine result of
the one-preimage revalidation batch (consulted only when the mutable
challenge fields changed); the remaining oracle arguments feed
`submitSolution`. -/
def scanHashStep (s : OrchState) (workerId : Nat) (addr : DerivedAddress)
    (challengeId : String) (challenge : Challenge) (hash nonce : String)
    (isDevFee : Bool) (serverHash : String)
    (outcome retryOutcome : AxiosOutcome) (regSucceeds : Bool)
    (regErrMsg : String) : OrchState × StepResult :=
  if !(matchesDifficulty hash challenge.difficulty) then (s, .nextHash)
  else if s.submittedSolutions.contains hash then (s, .nextHash)
  else
    let submissionKey := addr.bech32 ++ ":" ++ challengeId
    if s.submittingAddresses.contains submissionKey then (s, .exitWorker)
    else
      let s := { s with
        submittingAddresses := setAdd submissionKey s.submittingAddresses }
      let s := { s with
        stoppedWorkers :=
          stopSiblings s.workerStats workerId addr.index s.stoppedWorkers }
      let s := { s with
        pausedAddresses := setAdd submissionKey s.pausedAddresses }
      let s := { s with
        workerStats := wstatsUpdate s.workerStats workerId (fun w =>
          { w with status := .submitting,
                   solutionsFound := w.solutionsFound + 1 }) }
      let s := { s with
        submittedSolutions := setAdd hash s.submittedSolutions }
      if s.currentChallengeId != some challengeId then
        -- challenge no longer valid: discard the solution and stop
        let s := { s with
          pausedAddresses := setDel submissionKey s.pausedAddresses }
        let s := { s with
          submittingAddresses := setDel submissionKey s.submittingAddresses }
        (s, .exitWorker)
      else
        let validationChallenge := s.currentChallenge
        let afterValidation : Option (OrchState × StepResult) :=
          match validationChallenge with
          | some vc =>
            let dataChanged :=
              challenge.latest_submission != vc.latest_submission ||
              challenge.no_pre_mine_hour != vc.no_pre_mine_hour ||
              challenge.no_pre_mine != vc.no_pre_mine
            if dataChanged &&
                !(matchesDifficulty serverHash vc.difficulty) then
              -- the server would recompute a hash that misses the target
              some ({ s with
                pausedAddresses := setDel submissionKey s.pausedAddresses,
                submittingAddresses :=
                  setDel submissionKey s.submittingAddresses }, .nextHash)
            else if vc.difficulty != challenge.difficulty &&
                !(matchesDifficulty hash vc.difficulty) then
              -- difficulty changed and the found hash no longer meets it
              some ({ s with
                pausedAddresses := setDel submissionKey s.pausedAddresses,
                submittingAddresses :=
                  setDel submissionKey s.submittingAddresses,
                solvedAddressChallenges :=
                  solvedDelCh s.solvedAddressChallenges addr.bech32
                    challengeId }, .nextHash)
            else none
          | none => none
        match afterValidation with
        | some r => r
        | none =>
          submitPhase s workerId addr challengeId nonce hash isDevFee
            submissionKey outcome retryOutcome regSucceeds regErrMsg

end Miner

namespace Miner

/-! ## Startup, recovery, and transition operations -/

/-- The per-receipt bookkeeping of `loadSubmittedSolutions`: track the hash
(when present) and mark the address/challenge pair as solved. -/
def applyReceipt (s : OrchState) (r : Receipt) : OrchState :=
  let s := if r.hash != "" then
    { s with submittedSolutions := setAdd r.hash s.submittedSolutions }
  else s
  { s with
    solvedAddressChallenges :=
      solvedAdd s.solvedAddressChallenges r.address r.challenge_id }

/-- `MiningOrchestrator.loadSubmittedSolutions`: rebuild the dedupe state
from the receipts file and sync the dev-fee cache counter with it. -/
def loadSubmittedSolutions (s : OrchState) : OrchState :=
  let userReceipts := s.receipts.filter (fun r => !r.isDevFee)
  let devFeeReceipts := s.receipts.filter (fun r => r.isDevFee)
  let s := { s with userSolutionsCount := userReceipts.length }
  let s := if getTotalDevFeeSolutions s.devFee != devFeeReceipts.length then
    { s with devFee := syncWithReceipts s.devFee devFeeReceipts.length }
  else s
  let s := userReceipts.foldl applyReceipt s
  devFeeReceipts.foldl applyReceipt s

/-- `MiningOrchestrator.loadChallengeState`: restore the per-challenge
counters from the receipts of the given challenge.  The processed-address
set is rebuilt from the `findIndex` positions of the user receipts'
addresses. -/
def loadChallengeState (s : OrchState) (challengeId : String) : OrchState :=
  let challengeReceipts :=
    s.receipts.filter (fun r => r.challenge_id == challengeId)
  let userReceipts := challengeReceipts.filter (fun r => !r.isDevFee)
  let s := { s with solutionsFound := challengeReceipts.length }
  let processed := userReceipts.foldl (fun acc r =>
    match s.addresses.findIdx? (fun a => a.bech32 == r.address) with
    | some i => setAdd (Int.ofNat i) acc
    | none => acc) ([] : List Int)
  { s with addressesProcessedCurrentChallenge := processed }

/-- The clean-restart block of `pollAndMine` executed when a new challenge
id is polled while an old challenge is held: stop mining, kill the hash
workers, and reset the worker-coordination state. -/
def challengeTransitionCleanup (s : OrchState) : OrchState × List Effect :=
  if s.currentChallengeId.isSome && s.currentChallenge.isSome then
    ({ s with
        isMining := false,
        workerStats := [],
        addressesProcessedCurrentChallenge := [],
        pausedAddresses := [],
        submittingAddresses := [] },
      [Effect.killWorkers])
  else (s, [])

/-- The analogous cleanup block of the hourly-restart timer callback. -/
def hourlyRestartCleanup (s : OrchState) : OrchState × List Effect :=
  ({ s with
      isMining := false,
      workerStats := [],
      addressesProcessedCurrentChallenge := [],
      pausedAddresses := [],
      submittingAddresses := [] },
    [Effect.killWorkers])

/-- `MiningOrchestrator.start(password)`.  `walletAddrs` is the wallet
load's result, `now` is `Date.now()`, and `poolOutcome` feeds the dev-fee
prefetch when the cached pool is invalid.  When the orchestrator is already
running the call returns at once. -/
def startOrch (s : OrchState) (walletAddrs : List DerivedAddress) (now : Nat)
    (poolOutcome : PoolFetchOutcome) : OrchState × List Effect :=
  if s.isRunning then (s, [])
  else
    let s := { s with walletLoaded := true, addresses := walletAddrs }
    let s := loadSubmittedSolutions s
    let s := if hasValidAddressPool s.devFee then s
      else { s with devFee := (prefetchAddressPool s.devFee now poolOutcome).2 }
    let s := { s with
      isRunning := true,
      startTime := some now,
      solutionsFound := 0 }
    (s, [Effect.loadWallet, Effect.registerAddresses, Effect.prefetchPool,
         Effect.pollLoopStarted, Effect.hourlyRestartScheduled,
         Effect.watchdogStarted, Effect.statusEmitted])

/-! ## The worker-group layout in the words of the specification -/

/-- The worker-group layout exactly as claim C3 words it: with `W` workers
and a nonempty address list, the minimum per address is `W` when `W ≤ 4`
and `max 3 (min 5 (W / 4))` otherwise; `g := min (W / m) |addresses|`
groups are formed (one group of all workers when `g = 0`); group `i` gets
`W / g` workers plus one more when `i < W % g`; and ids are contiguous, so
group `i` starts at `(W / g) * i + min i (W % g)`. -/
def claimedWorkerGroups (addresses : List DerivedAddress) (w : Nat) :
    List WorkerGroup :=
  let m := if w ≤ 4 then w else max 3 (min 5 (w / 4))
  let g := min (w / m) addresses.length
  if g = 0 then
    [{ address := addresses.getD 0 default, workerIds := List.range w }]
  else
    (List.range g).map (fun i =>
      { address := addresses.getD i default,
        workerIds := (List.range (w / g + if i < w % g then 1 else 0)).map
          (fun j => (w / g) * i + min i (w % g) + j) })

end Miner

namespace Miner

/-! ## Basic lemmas about the container embeddings -/

theorem setAdd_contains_self {α : Type} [BEq α] [LawfulBEq α] (x : α)
    (l : List α) : (setAdd x l).contains x = true := by
  by_cases h : l.contains x <;> simp_all [setAdd]

theorem setAdd_mem_mono {α : Type} [BEq α] [LawfulBEq α] (x y : α)
    (l : List α) (h : y ∈ l) : y ∈ setAdd x l := by
  by_cases hx : l.contains x <;> simp_all [setAdd]

theorem setDel_contains_self {α : Type} [BEq α] [LawfulBEq α] (x : α)
    (l : List α) : (setDel x l).contains x = false := by
  simp [setDel]

theorem mapGet_mapPut_self {β : Type} (m : List (String × β)) (k : String)
    (v : β) : mapGet (mapPut m k v) k = some v := by
  induction m with
  | nil => simp [mapPut, mapGet]
  | cons p rest ih =>
    by_cases h : p.1 = k
    · simp [mapPut, mapGet, h]
    · simp [mapPut, mapGet, h, ih]

theorem mapGet_mapPut_other {β : Type} (m : List (String × β))
    (k k' : String) (v : β) (h : k ≠ k') :
    mapGet (mapPut m k v) k' = mapGet m k' := by
  induction m with
  | nil => simp [mapPut, mapGet, h, Ne.symm h]
  | cons p rest ih =>
    by_cases hp : p.1 = k
    · simp [mapPut, mapGet, hp, h, Ne.symm h]
    · by_cases hp' : p.1 = k' <;>
        simp [mapPut, mapGet, hp, hp', Ne.symm h, ih]

theorem solvedHas_solvedAdd {m : List (String × List String)}
    {a ch : String} (a' ch' : String) (h : solvedHas m a ch = true) :
    solvedHas (solvedAdd m a' ch') a ch = true := by
  unfold solvedHas at *
  unfold solvedAdd
  by_cases hk : a = a'
  · subst hk
    rcases hg : mapGet m a with _ | s
    · simp [hg] at h
    · simp [hg, mapGet_mapPut_self]
      simp [hg] at h
      exact setAdd_mem_mono _ _ _ h
  · have hne : a' ≠ a := fun hx => hk hx.symm
    rcases hg : mapGet m a' with _ | s <;>
      simp_all [hg, mapGet_mapPut_other _ _ _ _ hne]

end Miner

namespace Miner

/-! ## Concrete states used by witnesses and counterexamples -/

/-- A dev-fee manager state with the shipped defaults. -/
def baseDevFee : DevFeeManagerState :=
  { config := { enabled := true, apiUrl := "https://x", ratio := 17 },
    cache := { currentAddress := none, totalDevFeeSolutions := 0,
               lastFetchError := none, addressPool := [],
               poolFetchedAt := none, enabled := some true,
               currentChallengeId := none, solutionsThisChallenge := none } }

/-- A freshly constructed orchestrator. -/
def baseState : OrchState :=
  { isRunning := false, isMining := false, isDevFeeMining := false,
    walletLoaded := false, currentChallengeId := none,
    currentChallenge := none, addresses := [], solutionsFound := 0,
    userSolutionsCount := 0, startTime := none, submittedSolutions := [],
    solvedAddressChallenges := [], submittingAddresses := [],
    pausedAddresses := [], stoppedWorkers := [],
    addressSubmissionFailures := [], workerStats := [],
    addressesProcessedCurrentChallenge := [], receipts := [], errors := [],
    devFee := baseDevFee }

/-- A challenge descriptor used in concrete scenarios. -/
def ch0 : Challenge :=
  { challenge_id := "C1", difficulty := "0f", latest_submission := "L1",
    no_pre_mine := "P", no_pre_mine_hour := "H" }

/-! ## C10: `start` while already running -/

/-- C10: calling `start` while the orchestrator is already running returns
immediately, with no state change and no external action: the wallet is not
reloaded, addresses are not re-registered, and neither the poll loop nor
the hourly-restart or watchdog timers are rescheduled. -/
theorem start_noop_when_running (s : OrchState)
    (walletAddrs : List DerivedAddress) (now : Nat)
    (poolOutcome : PoolFetchOutcome) (h : s.isRunning = true) :
    startOrch s walletAddrs now poolOutcome = (s, []) := by
  simp [startOrch, h]

/-- Witness for C10 at a concrete running state. -/
theorem start_noop_when_running_witness :
    startOrch { baseState with isRunning := true } [] 5 (.rejected "down") =
      ({ baseState with isRunning := true }, []) :=
  start_noop_when_running _ _ _ _ rfl

/-! ## C9: state cleared on a challenge transition -/

/-- C9 (amended): when a new challenge id is polled while a challenge is
held, the transition block sets `isMining := false`, kills the hash-engine
workers, and clears `workerStats`, `addressesProcessedCurrentChallenge`,
`pausedAddresses` and `submittingAddresses`; `stoppedWorkers` is left
unchanged by the transition (it is cleared at the start of each mining
batch inside `startMining` instead). -/
theorem transition_cleanup_spec (s : OrchState) (old : String)
    (ch : Challenge) (h1 : s.currentChallengeId = some old)
    (h2 : s.currentChallenge = some ch) :
    challengeTransitionCleanup s =
      ({ s with
          isMining := false, workerStats := [],
          addressesProcessedCurrentChallenge := [], pausedAddresses := [],
          submittingAddresses := [] }, [Effect.killWorkers]) ∧
    (challengeTransitionCleanup s).1.stoppedWorkers = s.stoppedWorkers := by
  refine ⟨?_, ?_⟩ <;> simp [challengeTransitionCleanup, h1, h2]

/-- Witness for C9's amended theorem at a concrete held challenge. -/
theorem transition_cleanup_spec_witness :
    challengeTransitionCleanup { baseState with
        currentChallengeId := some "C1", currentChallenge := some ch0,
        stoppedWorkers := [3] } =
      ({ baseState with
          currentChallengeId := some "C1",
          currentChallenge := some ch0, stoppedWorkers := [3],
          isMining := false, workerStats := [],
          addressesProcessedCurrentChallenge := [], pausedAddresses := [],
          submittingAddresses := [] }, [Effect.killWorkers]) ∧
    (challengeTransitionCleanup { baseState with
        currentChallengeId := some "C1", currentChallenge := some ch0,
        stoppedWorkers := [3] }).1.stoppedWorkers = [3] :=
  transition_cleanup_spec _ "C1" ch0 rfl rfl

/-- Counterexample to C9 as stated: a transition with worker 3 in
`stoppedWorkers` leaves `stoppedWorkers` nonempty, so the transition does
not clear all five sets. -/
theorem transition_keeps_stoppedWorkers :
    (challengeTransitionCleanup { baseState with
        currentChallengeId := some "C1", currentChallenge := some ch0,
        stoppedWorkers := [3] }).1.stoppedWorkers ≠ [] := by
  decide

end Miner

namespace Miner

/-! ## C7: dev-fee pool prefetch postcondition -/

/-- When the validation scan finds no invalid address, every address of the
list is valid. -/
theorem all_valid_of_firstInvalidFrom_none :
    ∀ (l : List DevFeeAddress) (i : Nat), firstInvalidIdxFrom i l = none →
      ∀ a ∈ l, validDevAddr a = true := by
  intro l
  induction l with
  | nil => intro _ _ a ha; cases ha
  | cons x xs ih =>
    intro i h a ha
    by_cases hx : validDevAddr x
    · rcases List.mem_cons.mp ha with rfl | ha2
      · exact hx
      · refine ih (i + 1) ?_ a ha2
        simpa [firstInvalidIdxFrom, hx] using h
    · simp [firstInvalidIdxFrom, hx] at h

/-- C7 (amended): after `prefetchAddressPool` resolves `true` the stored
pool holds exactly 10 addresses, each starting with `tnight1` or `addr1`;
after it resolves `false` the stored pool is empty — except when the
rotator is not enabled, in which case the call returns `false` immediately
and leaves the manager state (including any cached pool) unchanged. -/
theorem prefetch_pool_spec (d : DevFeeManagerState) (now : Nat)
    (o : PoolFetchOutcome) :
    ((prefetchAddressPool d now o).1 = true →
      (prefetchAddressPool d now o).2.cache.addressPool.length = 10 ∧
      ∀ a ∈ (prefetchAddressPool d now o).2.cache.addressPool,
        validDevAddr a = true) ∧
    ((prefetchAddressPool d now o).1 = false →
      if isEnabled d then
        (prefetchAddressPool d now o).2.cache.addressPool = []
      else (prefetchAddressPool d now o).2 = d) := by
  by_cases hen : isEnabled d
  · rcases o with addressesData | msg
    · rcases addressesData with _ | l
      · simp [prefetchAddressPool, hen, poolFetchFail]
      · by_cases hlen : l.length = 10
        · rcases hfind : firstInvalidIdx (l.map (fun a =>
              ({ address := a.devAddress, addressIndex := a.devAddressIndex,
                 fetchedAt := now, usedCount := 0 } : DevFeeAddress)))
            with _ | i
          · constructor
            · intro _
              refine ⟨?_, ?_⟩
              · simp [prefetchAddressPool, hen, hlen, hfind]
              · intro a ha
                refine all_valid_of_firstInvalidFrom_none _ 0 hfind a ?_
                simpa [prefetchAddressPool, hen, hlen, hfind] using ha
            · intro hfalse
              simp [prefetchAddressPool, hen, hlen, hfind] at hfalse
          · simp [prefetchAddressPool, hen, hlen, hfind, poolFetchFail]
        · simp [prefetchAddressPool, hen, hlen, poolFetchFail]
    · simp [prefetchAddressPool, hen, poolFetchFail]
  · simp [prefetchAddressPool, hen]

/-- A successful pool response with ten valid addresses. -/
def tenGoodAddrs : List ApiDevAddr :=
  [{ devAddress := "addr1q0", devAddressIndex := 0, registered := true },
   { devAddress := "addr1q1", devAddressIndex := 1, registered := true },
   { devAddress := "addr1q2", devAddressIndex := 2, registered := true },
   { devAddress := "addr1q3", devAddressIndex := 3, registered := true },
   { devAddress := "addr1q4", devAddressIndex := 4, registered := true },
   { devAddress := "tnight1q5", devAddressIndex := 5, registered := true },
   { devAddress := "tnight1q6", devAddressIndex := 6, registered := true },
   { devAddress := "tnight1q7", devAddressIndex := 7, registered := true },
   { devAddress := "tnight1q8", devAddressIndex := 8, registered := true },
   { devAddress := "tnight1q9", devAddressIndex := 9, registered := true }]

/-- A manager whose user disabled the dev fee but whose cache file still
holds an address pool from an earlier session. -/
def disabledWithPool : DevFeeManagerState :=
  { baseDevFee with
      config := { baseDevFee.config with enabled := false },
      cache := { baseDevFee.cache with
        addressPool := [{ address := "addr1old", addressIndex := 0,
                          fetchedAt := 0, usedCount := 0 }] } }

/-- The prefetch run the witness evaluates: ten valid addresses fetched. -/
def goodPoolRun : Bool × DevFeeManagerState :=
  prefetchAddressPool baseDevFee 5 (.resolved (some tenGoodAddrs))

/-- The prefetch run with the rotator disabled. -/
def disabledPoolRun : Bool × DevFeeManagerState :=
  prefetchAddressPool disabledWithPool 5 (.rejected "down")

/-- Witness for C7's amended theorem: the success case at a concrete
ten-address response, and the disabled case at a concrete cached pool. -/
theorem prefetch_pool_spec_witness :
    (goodPoolRun.2.cache.addressPool.length = 10 ∧
      ∀ a ∈ goodPoolRun.2.cache.addressPool, validDevAddr a = true) ∧
    (if isEnabled disabledWithPool then
      disabledPoolRun.2.cache.addressPool = []
    else disabledPoolRun.2 = disabledWithPool) :=
  ⟨(prefetch_pool_spec baseDevFee 5 (.resolved (some tenGoodAddrs))).1
      (by decide),
   (prefetch_pool_spec disabledWithPool 5 (.rejected "down")).2 (by decide)⟩

/-- Counterexample to C7 as stated: with the rotator disabled but a pool
cached from an earlier session, `prefetchAddressPool` resolves `false` and
the stored pool is not empty. -/
theorem prefetch_false_pool_not_empty :
    disabledPoolRun.1 = false ∧
    disabledPoolRun.2.cache.addressPool ≠ [] := by
  decide

end Miner

namespace Miner

/-! ## C8: dev-fee address rotation -/

/-- The per-challenge counter `getDevFeeAddress` selects with: the stored
`solutionsThisChallenge` (0 when missing), reset to 0 whenever the stored
`currentChallengeId` differs from the requested challenge. -/
def rotationCounter (d : DevFeeManagerState) (currentChallengeId : String) :
    Nat :=
  if d.cache.currentChallengeId.getD none = some currentChallengeId then
    d.cache.solutionsThisChallenge.getD 0
  else 0

/-- C8: with a valid pool, `getDevFeeAddress c` returns the pool entry at
index `solutionsThisChallenge % 10`, where the counter is first reset to 0
(and the stored challenge id set to `c`) whenever the stored challenge id
differs from `c`; the rest of the manager state is unchanged. -/
theorem getDevFeeAddress_spec (d : DevFeeManagerState) (c : String)
    (h : d.cache.addressPool.length = 10) :
    getDevFeeAddress d c =
      .ok ((d.cache.addressPool.getD (rotationCounter d c % 10)
          { address := "", addressIndex := 0, fetchedAt := 0,
            usedCount := 0 }).address,
        { d with cache := { d.cache with
            currentChallengeId := some (some c),
            solutionsThisChallenge := some (rotationCounter d c) } }) := by
  have hvalid : hasValidAddressPool d = true := by
    simp [hasValidAddressPool, h]
  have hnone : ∀ k : Nat, k < 10 → ∀ hg : d.cache.addressPool[k]? = none,
      False := by
    intro k hk hg
    rw [List.getElem?_eq_none_iff] at hg
    omega
  rcases hstc : d.cache.solutionsThisChallenge with _ | n <;>
    rcases hcid : d.cache.currentChallengeId with _ | cid
  · rcases hg : d.cache.addressPool[0]? with _ | a
    · exact absurd hg (by intro hx; exact hnone 0 (by decide) hx)
    · simp [getDevFeeAddress, hvalid, rotationCounter, hstc, hcid, hg,
        List.getD, List.get?_eq_getElem?]
  · by_cases hsame : cid = some c
    · subst hsame
      rcases hg : d.cache.addressPool[0]? with _ | a
      · exact absurd hg (by intro hx; exact hnone 0 (by decide) hx)
      · simp [getDevFeeAddress, hvalid, rotationCounter, hstc, hcid, hg,
          List.getD, List.get?_eq_getElem?]
    · rcases hg : d.cache.addressPool[0]? with _ | a
      · exact absurd hg (by intro hx; exact hnone 0 (by decide) hx)
      · simp [getDevFeeAddress, hvalid, rotationCounter, hstc, hcid, hsame,
          hg, List.getD, List.get?_eq_getElem?]
  · rcases hg : d.cache.addressPool[0]? with _ | a
    · exact absurd hg (by intro hx; exact hnone 0 (by decide) hx)
    · simp [getDevFeeAddress, hvalid, rotationCounter, hstc, hcid, hg,
        List.getD, List.get?_eq_getElem?]
  · by_cases hsame : cid = some c
    · subst hsame
      rcases hg : d.cache.addressPool[n % 10]? with _ | a
      · exact absurd hg
          (by intro hx; exact hnone (n % 10) (Nat.mod_lt _ (by decide)) hx)
      · simp [getDevFeeAddress, hvalid, rotationCounter, hstc, hcid, hg,
          List.getD, List.get?_eq_getElem?]
        rw [← hcid, ← hstc]
    · rcases hg : d.cache.addressPool[0]? with _ | a
      · exact absurd hg (by intro hx; exact hnone 0 (by decide) hx)
      · simp [getDevFeeAddress, hvalid, rotationCounter, hstc, hcid, hsame,
          hg, List.getD, List.get?_eq_getElem?]

end Miner

namespace Miner

/-- A manager with a full pool, mid-challenge: 13 solutions recorded for
challenge "C7". -/
def midChallengeMgr : DevFeeManagerState :=
  { baseDevFee with cache := { baseDevFee.cache with
      addressPool := (List.range 10).map (fun i =>
        { address := "addr1p" ++ toString i, addressIndex := Int.ofNat i,
          fetchedAt := 0, usedCount := 0 }),
      currentChallengeId := some (some "C7"),
      solutionsThisChallenge := some 13 } }

/-- Witness for C8 at a concrete mid-challenge manager: the same challenge
keeps the counter (13), so slot 3 is served. -/
theorem getDevFeeAddress_spec_witness :
    getDevFeeAddress midChallengeMgr "C7" =
      .ok ((midChallengeMgr.cache.addressPool.getD
          (rotationCounter midChallengeMgr "C7" % 10)
          { address := "", addressIndex := 0, fetchedAt := 0,
            usedCount := 0 }).address,
        { midChallengeMgr with cache := { midChallengeMgr.cache with
            currentChallengeId := some (some "C7"),
            solutionsThisChallenge :=
              some (rotationCounter midChallengeMgr "C7") } }) :=
  getDevFeeAddress_spec midChallengeMgr "C7" (by decide)

end Miner

namespace Miner

/-! ## C4: when the next solution must be a dev-fee one -/

/-- C4: `shouldMineDevFeeNow` holds exactly when the rotator is enabled,
its pool holds exactly 10 addresses, no dev-fee mining is in progress, none
of the last `ratio` persisted receipts is a dev-fee receipt, and at least
`ratio - 1` user receipts are among them. -/
theorem shouldMineDevFee_iff (s : OrchState) :
    shouldMineDevFeeNow s = true ↔
      (isEnabled s.devFee = true ∧
       s.devFee.cache.addressPool.length = 10 ∧
       s.isDevFeeMining = false ∧
       (∀ r ∈ getRecentReceipts s.receipts (getRatio s.devFee),
          r.isDevFee = false) ∧
       ((getRecentReceipts s.receipts (getRatio s.devFee)).filter
          (fun r => !r.isDevFee)).length ≥ getRatio s.devFee - 1) := by
  unfold shouldMineDevFeeNow
  by_cases hen : isEnabled s.devFee
  · by_cases hpool : hasValidAddressPool s.devFee
    · have hpool10 : s.devFee.cache.addressPool.length = 10 := by
        simpa [hasValidAddressPool] using hpool
      by_cases hmine : s.isDevFeeMining
      · simp [hen, hpool, hmine]
      · simp [hen, hpool, hmine, hpool10]
        intro hdev
        rw [List.filter_eq_self.mpr (fun a ha => by simp [hdev a ha])]
    · have hp10 : ¬ s.devFee.cache.addressPool.length = 10 := by
        intro hx
        exact absurd (by simp [hasValidAddressPool, hx] :
          hasValidAddressPool s.devFee = true) hpool
      simp only [Bool.not_eq_true] at hpool
      simp [hen, hpool, hp10]
  · simp only [Bool.not_eq_true] at hen
    simp [hen]

end Miner

namespace Miner

/-! ## C3: worker grouping in auto mode -/

/-- The running worker-id counter after `k` groups starting at group index
`i` equals `base * k` plus the number of extra-worker groups passed. -/
theorem buildGroups_offset_step (base extra i k : Nat) :
    base + (if i < extra then 1 else 0) +
      (base * k + min k (extra - (i + 1))) =
    base * (k + 1) + min (k + 1) (extra - i) := by
  rcases Nat.lt_or_ge i extra with h | h
  · have hsub : extra - i = (extra - (i + 1)) + 1 := by omega
    rw [if_pos h, hsub, Nat.succ_min_succ, Nat.mul_succ]
    omega
  · have h1 : extra - i = 0 := by omega
    have h2 : extra - (i + 1) = 0 := by omega
    rw [if_neg (by omega), h1, h2, Nat.mul_succ]
    simp
    omega

/-- Closed form of the group-building loop: group `k` (counting from the
loop position `i`, with id counter `cnt`) holds the contiguous worker ids
starting at `cnt + base * k + min k (extra - i)`. -/
theorem buildGroups_eq (addresses : List DerivedAddress) (base extra : Nat) :
    ∀ (n i cnt : Nat),
      buildGroups addresses base extra n i cnt =
        (List.range n).map (fun k =>
          { address := addresses.getD (i + k) default,
            workerIds := (List.range
                (base + if i + k < extra then 1 else 0)).map
              (fun j => cnt + (base * k + min k (extra - i)) + j) }) := by
  intro n
  induction n with
  | zero => intro i cnt; simp [buildGroups]
  | succ m ih =>
    intro i cnt
    rw [buildGroups, List.range_succ_eq_map, List.map_cons, List.map_map]
    refine congrArg₂ (fun h t => List.cons h t) ?_ ?_
    · simp
    · rw [ih (i + 1) (cnt + (base + if i < extra then 1 else 0))]
      refine List.map_congr_left ?_
      intro k _
      simp only [Function.comp_apply, Nat.succ_eq_add_one]
      rw [show i + 1 + k = i + (k + 1) by omega]
      have hstep := buildGroups_offset_step base extra i k
      congr 1
      refine List.map_congr_left ?_
      intro j _
      generalize hE : (if i < extra then 1 else 0) = e at hstep
      generalize hB1 : base * k = bk at hstep
      generalize hB2 : base * (k + 1) = bk1 at hstep
      omega

/-- C3: in auto mode, for a nonempty address list and at least one worker,
`calculateWorkerGroups` produces exactly the layout the specification
describes (min-per-address clamp, `min (W / m) |R|` groups, even split with
the first `W mod g` groups one larger, contiguous worker ids). -/
theorem calculateWorkerGroups_auto_spec (addresses : List DerivedAddress)
    (workersPerAddress w : Nat) (hA : addresses ≠ []) (hW : 1 ≤ w) :
    calculateWorkerGroups .auto workersPerAddress addresses w =
      claimedWorkerGroups addresses w := by
  unfold calculateWorkerGroups claimedWorkerGroups getMinWorkersPerAddress
  rcases addresses with _ | ⟨a, rest⟩
  · exact absurd rfl hA
  by_cases h4 : w ≤ 4
  · simp only [if_pos h4]
    have hg : min (w / w) (a :: rest).length = 1 := by
      rw [Nat.div_self (by omega)]
      have : 1 ≤ (a :: rest).length := by simp
      omega
    rw [hg]
    simp only [show ((1 : Nat) == 0) = false from rfl, Bool.false_eq_true,
      if_false, if_neg (by omega : ¬ (1 = 0))]
    rw [buildGroups_eq]
    simp
  · simp only [if_neg h4]
    have hm5 : max 3 (min 5 (w / 4)) ≤ 5 := by omega
    have hmw : max 3 (min 5 (w / 4)) ≤ w := by omega
    have hdivpos : 1 ≤ w / max 3 (min 5 (w / 4)) :=
      (Nat.one_le_div_iff (by omega)).mpr hmw
    have hgpos : 1 ≤ min (w / max 3 (min 5 (w / 4))) (a :: rest).length := by
      have : 1 ≤ (a :: rest).length := by simp
      omega
    have hgne : ((min (w / max 3 (min 5 (w / 4))) (a :: rest).length)
        == 0) = false := by
      simp only [beq_eq_false_iff_ne, ne_eq]
      omega
    rw [hgne]
    simp only [Bool.false_eq_true, if_false, if_neg (by omega :
      ¬ (min (w / max 3 (min 5 (w / 4))) (a :: rest).length = 0))]
    rw [buildGroups_eq]
    refine List.map_congr_left ?_
    intro k _
    simp

end Miner

namespace Miner

/-- Three registered addresses for concrete grouping runs. -/
def threeAddrs : List DerivedAddress :=
  [{ index := 0, bech32 := "addr1a", publicKeyHex := "", registered := true },
   { index := 1, bech32 := "addr1b", publicKeyHex := "", registered := true },
   { index := 2, bech32 := "addr1c", publicKeyHex := "", registered := true }]

/-- Witness for C3 at 11 workers over three addresses. -/
theorem calculateWorkerGroups_auto_spec_witness :
    calculateWorkerGroups .auto 5 threeAddrs 11 =
      claimedWorkerGroups threeAddrs 11 :=
  calculateWorkerGroups_auto_spec threeAddrs 5 11 (by decide) (by decide)

end Miner

namespace Miner

/-! ## C6: nonce ranges -/

/-- Splitting a contiguous block of nonces: the concatenation of two
adjacent shifted ranges is one shifted range. -/
theorem range_map_append (c a b : Nat) :
    (List.range a).map (fun i => c + i) ++
      (List.range b).map (fun i => c + a + i) =
    (List.range (a + b)).map (fun i => c + i) := by
  rw [List.range_add, List.map_append, List.map_map]
  refine congrArg₂ (fun x y => x ++ y) rfl ?_
  refine List.map_congr_left ?_
  intro k _
  simp only [Function.comp_apply]
  omega

/-- Whatever the loop does, the nonces a worker enumerates from position
`cur` form one contiguous ascending block `cur, cur+1, ...` that stays
below `nonceEnd`. -/
theorem mineLoop_contiguous (wid bs : Nat) :
    ∀ (ticks : List LoopTick) (cur : Nat), cur ≤ nonceEnd wid →
      ∃ n, cur + n ≤ nonceEnd wid ∧
        mineLoopNonces wid bs cur ticks =
          (List.range n).map (fun i => cur + i) := by
  intro ticks
  induction ticks with
  | nil =>
    intro cur h
    exact ⟨0, by omega, by simp [mineLoopNonces]⟩
  | cons t rest ih =>
    intro cur h
    cases t with
    | paused =>
      by_cases hlt : cur < nonceEnd wid
      · rcases ih cur h with ⟨n, hn, heq⟩
        refine ⟨n, hn, ?_⟩
        simp only [mineLoopNonces]
        rw [if_pos hlt, heq]
      · refine ⟨0, by omega, ?_⟩
        simp only [mineLoopNonces]
        rw [if_neg hlt]
        simp
    | gen cut =>
      by_cases hlt : cur < nonceEnd wid
      · by_cases hz : min (min bs (nonceEnd wid - cur)) cut = 0
        · refine ⟨0, by omega, ?_⟩
          simp only [mineLoopNonces]
          rw [if_pos hlt, if_pos hz]
          simp
        · have hle : cur + min (min bs (nonceEnd wid - cur)) cut ≤
              nonceEnd wid := by omega
          rcases ih (cur + min (min bs (nonceEnd wid - cur)) cut) hle
            with ⟨n, hn, heq⟩
          refine ⟨min (min bs (nonceEnd wid - cur)) cut + n, by omega, ?_⟩
          rw [← range_map_append]
          simp only [mineLoopNonces]
          rw [if_pos hlt, if_neg hz, heq]
      · refine ⟨0, by omega, ?_⟩
        simp only [mineLoopNonces]
        rw [if_neg hlt]
        simp

/-- C6: every worker enumerates nonces only from its own window
`[workerId * 10^9, (workerId+1) * 10^9)`, in sequential order (the
enumeration is one ascending contiguous block from the window's start);
windows of distinct workers are disjoint; and a worker whose nonce position
reaches the end of its window exits the loop without enumerating anything
further. -/
theorem workerNonces_spec (i j bs : Nat) (ti tj : List LoopTick)
    (hij : i ≠ j) :
    (∃ n, n ≤ NONCE_RANGE_SIZE ∧ workerNonces i bs ti =
       (List.range n).map (fun k => nonceStart i + k)) ∧
    (∀ x ∈ workerNonces i bs ti, nonceStart i ≤ x ∧ x < nonceEnd i) ∧
    (∀ x ∈ workerNonces i bs ti, x ∉ workerNonces j bs tj) ∧
    (∀ ticks, mineLoopNonces i bs (nonceEnd i) ticks = []) := by
  have hbounds : ∀ (w : Nat) (ticks : List LoopTick),
      ∀ x ∈ workerNonces w bs ticks,
        nonceStart w ≤ x ∧ x < nonceEnd w := by
    intro w ticks x hx
    rcases mineLoop_contiguous w bs ticks (nonceStart w)
        (by rw [nonceEnd]; omega) with ⟨n, hn, heq⟩
    rw [workerNonces, heq] at hx
    simp only [List.mem_map, List.mem_range] at hx
    rcases hx with ⟨k, hk, rfl⟩
    omega
  refine ⟨?_, hbounds i ti, ?_, ?_⟩
  · rcases mineLoop_contiguous i bs ti (nonceStart i)
        (by rw [nonceEnd]; omega) with ⟨n, hn, heq⟩
    refine ⟨n, ?_, heq⟩
    simp only [nonceEnd] at hn
    omega
  · intro x hxi hxj
    have h1 := hbounds i ti x hxi
    have h2 := hbounds j tj x hxj
    simp only [nonceStart, nonceEnd, NONCE_RANGE_SIZE] at h1 h2
    have : i = j := by omega
    exact hij this
  · intro ticks
    cases ticks with
    | nil => rfl
    | cons t rest => cases t <;> simp [mineLoopNonces]

/-- Witness for C6 at workers 0 and 1 with the default batch size and a
couple of loop iterations each. -/
theorem workerNonces_spec_witness :
    (∃ n, n ≤ NONCE_RANGE_SIZE ∧ workerNonces 0 300 [.gen 300, .paused] =
       (List.range n).map (fun k => nonceStart 0 + k)) ∧
    (∀ x ∈ workerNonces 0 300 [.gen 300, .paused],
       nonceStart 0 ≤ x ∧ x < nonceEnd 0) ∧
    (∀ x ∈ workerNonces 0 300 [.gen 300, .paused],
       x ∉ workerNonces 1 300 [.gen 7]) ∧
    (∀ ticks, mineLoopNonces 0 300 (nonceEnd 0) ticks = []) :=
  workerNonces_spec 0 1 300 [.gen 300, .paused] [.gen 7] (by decide)

end Miner

namespace Miner

/-! ## C5: duplicate-solution responses -/

/-- A running orchestrator with its wallet loaded, about to submit. -/
def c5State : OrchState :=
  { baseState with
    isRunning := true, isMining := true, walletLoaded := true,
    currentChallengeId := some "C1", currentChallenge := some ch0 }

/-- The mining address of the concrete scenario. -/
def addrA : DerivedAddress :=
  { index := 0, bech32 := "a1", publicKeyHex := "", registered := true }

/-- The server's duplicate report: HTTP 400 with body
`error: "solution already exists"` (axios resolves it, since
`validateStatus` accepts everything below 500). -/
def dupResponse : AxiosOutcome :=
  .resolved { status := 400, statusText := "Bad Request",
              data := some { message := none,
                             error := some "solution already exists" } }

/-- The one submission attempt of the scenario. -/
def c5Run : OrchState × SubmitResult :=
  submitSolution c5State addrA "C1" "n0" "h0" false dupResponse
    dupResponse true ""

/-- C5 (code bug): on a 400 response whose body reports
"solution already exists", `submitSolution` throws a fresh
`Server rejected solution: 400 Bad Request` error that no longer carries
the response body, so the duplicate classifier never fires: the call
re-throws instead of returning normally, `(addr, ch)` is NOT inserted into
the solved set, and the error log receives the generic entry rather than
the benign-duplicate entry. -/
theorem submitSolution_dup_response_rethrown :
    c5Run.2 = .thrown "Server rejected solution: 400 Bad Request" ∧
    solvedHas c5Run.1.solvedAddressChallenges "a1" "C1" = false ∧
    c5Run.1.errors =
      [{ address := "a1", addressIndex := 0, challenge_id := "C1",
         nonce := "n0", hash := "h0",
         error := "Server rejected solution: 400 Bad Request" }] := by
  decide

end Miner

namespace Miner

/-! ## C1: pre-submission validation failure -/

theorem setDel_not_mem_self {α : Type} [BEq α] [LawfulBEq α] (x : α)
    (l : List α) : x ∉ setDel x l := by
  simp [setDel]

theorem setAdd_mem_self {α : Type} [BEq α] [LawfulBEq α] (x : α)
    (l : List α) : x ∈ setAdd x l := by
  by_cases h : l.contains x <;> simp_all [setAdd]

/-- C1 (amended): when a worker's found hash meets the frozen snapshot's
difficulty but pre-submission validation fails — either the mutable
challenge fields changed and the recomputed hash misses the current
difficulty, or the difficulty changed and the found hash misses it — the
worker releases the submitting and paused locks, does not touch the
failure counters, writes no error-log entry, and continues mining; the
hash however REMAINS in the submitted-hashes set (it was inserted before
validation and the discard paths do not remove it). -/
theorem presubmission_discard_spec (s : OrchState) (workerId : Nat)
    (addr : DerivedAddress) (challengeId : String)
    (challenge vc : Challenge) (hash nonce : String) (isDevFee : Bool)
    (serverHash : String) (outcome retryOutcome : AxiosOutcome)
    (regSucceeds : Bool) (regErrMsg : String)
    (hm : matchesDifficulty hash challenge.difficulty = true)
    (hsub : hash ∉ s.submittedSolutions)
    (hlock : (addr.bech32 ++ ":" ++ challengeId) ∉ s.submittingAddresses)
    (hcur : s.currentChallengeId = some challengeId)
    (hvc : s.currentChallenge = some vc)
    (hdisc :
      ((challenge.latest_submission != vc.latest_submission ||
        challenge.no_pre_mine_hour != vc.no_pre_mine_hour ||
        challenge.no_pre_mine != vc.no_pre_mine) = true ∧
       matchesDifficulty serverHash vc.difficulty = false) ∨
      (((challenge.latest_submission != vc.latest_submission ||
         challenge.no_pre_mine_hour != vc.no_pre_mine_hour ||
         challenge.no_pre_mine != vc.no_pre_mine) = true →
        matchesDifficulty serverHash vc.difficulty = true) ∧
       vc.difficulty ≠ challenge.difficulty ∧
       matchesDifficulty hash vc.difficulty = false)) :
    (scanHashStep s workerId addr challengeId challenge hash nonce isDevFee
        serverHash outcome retryOutcome regSucceeds regErrMsg).2 =
      .nextHash ∧
    (addr.bech32 ++ ":" ++ challengeId) ∉
      (scanHashStep s workerId addr challengeId challenge hash nonce
        isDevFee serverHash outcome retryOutcome regSucceeds
        regErrMsg).1.submittingAddresses ∧
    (addr.bech32 ++ ":" ++ challengeId) ∉
      (scanHashStep s workerId addr challengeId challenge hash nonce
        isDevFee serverHash outcome retryOutcome regSucceeds
        regErrMsg).1.pausedAddresses ∧
    hash ∈ (scanHashStep s workerId addr challengeId challenge hash nonce
        isDevFee serverHash outcome retryOutcome regSucceeds
        regErrMsg).1.submittedSolutions ∧
    (scanHashStep s workerId addr challengeId challenge hash nonce isDevFee
        serverHash outcome retryOutcome regSucceeds
        regErrMsg).1.addressSubmissionFailures =
      s.addressSubmissionFailures ∧
    (scanHashStep s workerId addr challengeId challenge hash nonce isDevFee
        serverHash outcome retryOutcome regSucceeds regErrMsg).1.errors =
      s.errors := by
  rcases hdisc with ⟨hdc, hsv⟩ | ⟨himp, hdne, hhv⟩
  · refine ⟨?_, ?_, ?_, ?_, ?_, ?_⟩ <;>
      simp [scanHashStep, hm, hsub, hlock, hcur, hvc, hdc, hsv,
        setDel_not_mem_self, setAdd_mem_self]
  · have hcond : ((challenge.latest_submission != vc.latest_submission ||
        challenge.no_pre_mine_hour != vc.no_pre_mine_hour ||
        challenge.no_pre_mine != vc.no_pre_mine) &&
        !(matchesDifficulty serverHash vc.difficulty)) = false := by
      by_cases hdc : (challenge.latest_submission != vc.latest_submission ||
          challenge.no_pre_mine_hour != vc.no_pre_mine_hour ||
          challenge.no_pre_mine != vc.no_pre_mine) = true
      · simp [hdc, himp hdc]
      · simp only [Bool.not_eq_true] at hdc
        simp [hdc]
    have hdneb : (vc.difficulty != challenge.difficulty) = true := by
      simp [hdne]
    refine ⟨?_, ?_, ?_, ?_, ?_, ?_⟩ <;>
      simp [scanHashStep, hm, hsub, hlock, hcur, hvc, hcond, hdneb, hhv,
        setDel_not_mem_self, setAdd_mem_self]

end Miner

namespace Miner

/-- The frozen snapshot of the C1 scenario (difficulty mask `0f`). -/
def frozenCh : Challenge :=
  { challenge_id := "C1", difficulty := "0f", latest_submission := "L1",
    no_pre_mine := "P", no_pre_mine_hour := "H" }

/-- The current snapshot of the C1 scenario: `latest_submission` moved on,
same difficulty. -/
def movedCh : Challenge :=
  { challenge_id := "C1", difficulty := "0f", latest_submission := "L2",
    no_pre_mine := "P", no_pre_mine_hour := "H" }

/-- The orchestrator state of the C1 scenario: mining challenge "C1",
worker 0 on address `a1`, nothing submitted yet. -/
def c1State : OrchState :=
  { baseState with
    isRunning := true, isMining := true, walletLoaded := true,
    currentChallengeId := some "C1", currentChallenge := some movedCh,
    workerStats :=
      [(0, { addressIndex := 0, status := .mining, solutionsFound := 0 })] }

/-- The discard run of the C1 scenario: hash `03` meets the frozen mask
`0f`, the mutable fields differ, and the recomputed hash `f0` misses the
mask, so the solution is discarded before submission. -/
def c1Run : OrchState × StepResult :=
  scanHashStep c1State 0 addrA "C1" frozenCh "03" "n0" false "f0"
    dupResponse dupResponse true ""

/-- Witness for C1's amended theorem at the concrete discard scenario. -/
theorem presubmission_discard_spec_witness :
    c1Run.2 = .nextHash ∧
    (addrA.bech32 ++ ":" ++ "C1") ∉ c1Run.1.submittingAddresses ∧
    (addrA.bech32 ++ ":" ++ "C1") ∉ c1Run.1.pausedAddresses ∧
    "03" ∈ c1Run.1.submittedSolutions ∧
    c1Run.1.addressSubmissionFailures = c1State.addressSubmissionFailures ∧
    c1Run.1.errors = c1State.errors :=
  presubmission_discard_spec c1State 0 addrA "C1" frozenCh movedCh "03"
    "n0" false "f0" dupResponse dupResponse true ""
    (by decide) (by decide) (by decide) rfl rfl
    (Or.inl ⟨by decide, by decide⟩)

/-- Counterexample to C1 as stated: in the concrete discard scenario the
worker does release the locks and continue, but the found hash is still in
the submitted-hashes set afterwards — the discard paths do not remove it. -/
theorem presubmission_discard_keeps_hash :
    c1Run.2 = .nextHash ∧
    (addrA.bech32 ++ ":" ++ "C1") ∉ c1Run.1.submittingAddresses ∧
    "03" ∈ c1Run.1.submittedSolutions := by
  decide

end Miner

namespace Miner

/-! ## C2: solved-set monotonicity -/

theorem setDel_mem_other {α : Type} [BEq α] [LawfulBEq α] {x y : α}
    (l : List α) (hne : y ≠ x) (h : y ∈ l) : y ∈ setDel x l := by
  simp [setDel, hne, h]

theorem solvedHas_solvedDelCh_other {m : List (String × List String)}
    {a ch a' ch' : String} (hne : a ≠ a' ∨ ch ≠ ch')
    (h : solvedHas m a ch = true) :
    solvedHas (solvedDelCh m a' ch') a ch = true := by
  unfold solvedHas at *
  unfold solvedDelCh
  rcases hg : mapGet m a' with _ | sset
  · exact h
  · dsimp only
    by_cases hk : a = a'
    · subst hk
      have hch : ch ≠ ch' := by
        rcases hne with hne | hne
        · exact absurd rfl hne
        · exact hne
      rw [mapGet_mapPut_self]
      rw [hg] at h
      simp only [Option.getD_some] at h ⊢
      simp only [List.elem_eq_mem, decide_eq_true_eq] at h ⊢
      exact setDel_mem_other _ hch h
    · rw [mapGet_mapPut_other _ _ _ _ (fun hx => hk hx.symm)]
      exact h

theorem submitTry_solved (s : OrchState) (addr : DerivedAddress)
    (challengeId nonce hash : String) (isDevFee : Bool)
    (outcome : AxiosOutcome) :
    (submitTry s addr challengeId nonce hash isDevFee
      outcome).1.solvedAddressChallenges = s.solvedAddressChallenges := by
  rcases outcome with r | ⟨m, c, resp⟩
  · by_cases h2 : 200 ≤ r.status ∧ r.status < 300
    · by_cases hd : isDevFee <;> simp [submitTry, h2, hd]
    · simp [submitTry, h2]
  · rfl

theorem catchTail_solved (s : OrchState) (addr : DerivedAddress)
    (challengeId nonce hash : String) (e : JsError) :
    (catchTail s addr challengeId nonce hash
      e).1.solvedAddressChallenges = s.solvedAddressChallenges := by
  unfold catchTail
  by_cases ht : isTimeoutError e <;> simp [ht]

theorem submitSolution_solved_mono (s : OrchState) (addr : DerivedAddress)
    (challengeId nonce hash : String) (isDevFee : Bool)
    (outcome retryOutcome : AxiosOutcome) (regSucceeds : Bool)
    (regErrMsg : String) (a ch : String)
    (h : solvedHas s.solvedAddressChallenges a ch = true) :
    solvedHas (submitSolution s addr challengeId nonce hash isDevFee
      outcome retryOutcome regSucceeds
      regErrMsg).1.solvedAddressChallenges a ch = true := by
  unfold submitSolution
  by_cases hw : s.walletLoaded
  · simp only [hw, Bool.not_true, Bool.false_eq_true, if_false]
    rcases h1 : submitTry s addr challengeId nonce hash isDevFee outcome
      with ⟨s1, e1⟩
    have hs1 : s1.solvedAddressChallenges = s.solvedAddressChallenges := by
      have := submitTry_solved s addr challengeId nonce hash isDevFee
        outcome
      rw [h1] at this
      exact this
    rcases e1 with _ | e
    · simpa [hs1] using h
    · simp only []
      by_cases hdup : isSolutionAlreadyExists e (errMsgOf e)
      · simp only [hdup, if_true]
        unfold dupBranch
        simp only []
        refine solvedHas_solvedAdd _ _ ?_
        rw [hs1]
        exact h
      · simp only [hdup, Bool.false_eq_true, if_false]
        by_cases hreg : isNotRegisteredError e (errMsgOf e)
        · simp only [hreg, if_true]
          by_cases hrs : regSucceeds
          · simp only [hrs, if_true]
            rcases h2 : submitTry (registerAddressMark s1 addr) addr
                challengeId nonce hash isDevFee retryOutcome with ⟨s3, e2⟩
            have hs3 : s3.solvedAddressChallenges =
                s.solvedAddressChallenges := by
              have := submitTry_solved (registerAddressMark s1 addr) addr
                challengeId nonce hash isDevFee retryOutcome
              rw [h2] at this
              rw [this, registerAddressMark, hs1]
            rcases e2 with _ | e2'
            · simpa [hs3] using h
            · simp only []
              by_cases hdup2 : isSolutionAlreadyExists e2' (errMsgOf e2')
              · simp only [hdup2, if_true]
                unfold dupBranch
                simp only []
                refine solvedHas_solvedAdd _ _ ?_
                rw [hs3]
                exact h
              · simp only [hdup2, Bool.false_eq_true, if_false]
                rw [catchTail_solved, hs3]
                exact h
          · simp only [hrs, Bool.false_eq_true, if_false]
            simpa [hs1] using h
        · simp only [hreg, Bool.false_eq_true, if_false]
          rw [catchTail_solved, hs1]
          exact h
  · simp only [hw]
    simpa using h

end Miner

namespace Miner

theorem submitPhase_solved_mono (s : OrchState) (workerId : Nat)
    (addr : DerivedAddress) (challengeId nonce hash : String)
    (isDevFee : Bool) (submissionKey : String)
    (outcome retryOutcome : AxiosOutcome) (regSucceeds : Bool)
    (regErrMsg : String) (a ch : String)
    (h : solvedHas s.solvedAddressChallenges a ch = true) :
    solvedHas (submitPhase s workerId addr challengeId nonce hash isDevFee
      submissionKey outcome retryOutcome regSucceeds
      regErrMsg).1.solvedAddressChallenges a ch = true := by
  unfold submitPhase
  have hmono := submitSolution_solved_mono s addr challengeId nonce hash
    isDevFee outcome retryOutcome regSucceeds regErrMsg a ch h
  rcases hrun : submitSolution s addr challengeId nonce hash isDevFee
    outcome retryOutcome regSucceeds regErrMsg with ⟨s1, res⟩
  rw [hrun] at hmono
  rcases res with _ | msg
  · dsimp only
    exact solvedHas_solvedAdd _ _ hmono
  · dsimp only
    exact hmono

theorem applyReceipt_solved_mono (s : OrchState) (r : Receipt)
    (a ch : String) (h : solvedHas s.solvedAddressChallenges a ch = true) :
    solvedHas (applyReceipt s r).solvedAddressChallenges a ch = true := by
  unfold applyReceipt
  by_cases hh : r.hash != "" <;>
    simp only [hh, Bool.false_eq_true, if_false, if_true] <;>
    exact solvedHas_solvedAdd _ _ h

theorem foldl_applyReceipt_solved_mono (l : List Receipt) :
    ∀ (s : OrchState) (a ch : String),
      solvedHas s.solvedAddressChallenges a ch = true →
      solvedHas (l.foldl applyReceipt s).solvedAddressChallenges a ch
        = true := by
  induction l with
  | nil => intro s a ch h; simpa using h
  | cons r rest ih =>
    intro s a ch h
    rw [List.foldl_cons]
    exact ih _ _ _ (applyReceipt_solved_mono s r a ch h)

theorem loadSubmittedSolutions_solved_mono (s : OrchState) (a ch : String)
    (h : solvedHas s.solvedAddressChallenges a ch = true) :
    solvedHas (loadSubmittedSolutions s).solvedAddressChallenges a ch
      = true := by
  unfold loadSubmittedSolutions
  refine foldl_applyReceipt_solved_mono _ _ _ _ ?_
  refine foldl_applyReceipt_solved_mono _ _ _ _ ?_
  by_cases hsync : getTotalDevFeeSolutions s.devFee
      != (s.receipts.filter (fun r => r.isDevFee)).length <;>
    simp [hsync, h]

end Miner

namespace Miner

/-- The scan step can only remove a pair from the solved set through the
difficulty-change discard, and then only the pair it is mining. -/
theorem scanHashStep_solved (s : OrchState) (workerId : Nat)
    (addr : DerivedAddress) (challengeId : String) (challenge : Challenge)
    (hash nonce : String) (isDevFee : Bool) (serverHash : String)
    (outcome retryOutcome : AxiosOutcome) (regSucceeds : Bool)
    (regErrMsg : String) (a ch : String)
    (h : solvedHas s.solvedAddressChallenges a ch = true) :
    solvedHas (scanHashStep s workerId addr challengeId challenge hash
      nonce isDevFee serverHash outcome retryOutcome regSucceeds
      regErrMsg).1.solvedAddressChallenges a ch = true ∨
    (a = addr.bech32 ∧ ch = challengeId ∧
      ∃ vc, s.currentChallenge = some vc ∧
        vc.difficulty ≠ challenge.difficulty ∧
        matchesDifficulty hash vc.difficulty = false) := by
  by_cases hm : matchesDifficulty hash challenge.difficulty
  case neg => left; simp [scanHashStep, hm, h]
  case pos =>
  by_cases hsub : hash ∈ s.submittedSolutions
  case pos => left; simp [scanHashStep, hm, hsub, h]
  case neg =>
  by_cases hlock : (addr.bech32 ++ ":" ++ challengeId) ∈
    s.submittingAddresses
  case pos => left; simp [scanHashStep, hm, hsub, hlock, h]
  case neg =>
  by_cases hchal : s.currentChallengeId = some challengeId
  case neg =>
    left
    simp [scanHashStep, hm, hsub, hlock, bne_iff_ne, hchal, h]
  case pos =>
  rcases hvc : s.currentChallenge with _ | vc
  · left
    simp [scanHashStep, hm, hsub, hlock, hchal, hvc]
    apply submitPhase_solved_mono
    simpa using h
  · by_cases hA : ((challenge.latest_submission != vc.latest_submission ||
        challenge.no_pre_mine_hour != vc.no_pre_mine_hour ||
        challenge.no_pre_mine != vc.no_pre_mine) &&
        !(matchesDifficulty serverHash vc.difficulty)) = true
    case pos =>
      left
      simp [scanHashStep, hm, hsub, hlock, hchal, hvc, hA, h]
    case neg =>
    by_cases hB : ((vc.difficulty != challenge.difficulty) &&
        !(matchesDifficulty hash vc.difficulty)) = true
    case pos =>
      by_cases hkey : a = addr.bech32 ∧ ch = challengeId
      · right
        simp only [Bool.and_eq_true, bne_iff_ne, ne_eq,
          Bool.not_eq_true'] at hB
        exact ⟨hkey.1, hkey.2, vc, rfl, hB.1, hB.2⟩
      · left
        have hne : a ≠ addr.bech32 ∨ ch ≠ challengeId := by
          by_cases h1 : a = addr.bech32
          · right; intro h2; exact hkey ⟨h1, h2⟩
          · left; exact h1
        simp [scanHashStep, hm, hsub, hlock, hchal, hvc, hA, hB]
        exact solvedHas_solvedDelCh_other hne h
    case neg =>
      left
      simp [scanHashStep, hm, hsub, hlock, hchal, hvc, hA, hB]
      apply submitPhase_solved_mono
      simpa using h

end Miner

namespace Miner

/-- C2 (amended): once `(addr, ch)` is in the solved set it is preserved by
every modelled orchestrator operation — the challenge-transition and
hourly-restart cleanups, challenge-state loading, receipts recovery,
`start`, and `submitSolution` — with one exception: the difficulty-change
discard inside the scan step of `mineForAddress`, which deletes exactly the
pair being mined when the held snapshot's difficulty differs from the
frozen one and the found hash no longer meets it. -/
theorem solvedSet_monotone_except_discard (a ch : String) (s : OrchState)
    (h : solvedHas s.solvedAddressChallenges a ch = true) :
    solvedHas
      (challengeTransitionCleanup s).1.solvedAddressChallenges a ch
      = true ∧
    solvedHas (hourlyRestartCleanup s).1.solvedAddressChallenges a ch
      = true ∧
    (∀ cid, solvedHas
      (loadChallengeState s cid).solvedAddressChallenges a ch = true) ∧
    solvedHas (loadSubmittedSolutions s).solvedAddressChallenges a ch
      = true ∧
    (∀ w now o, solvedHas
      (startOrch s w now o).1.solvedAddressChallenges a ch = true) ∧
    (∀ addr cid nonce hash dev oc roc rs rem, solvedHas
      (submitSolution s addr cid nonce hash dev oc roc rs
        rem).1.solvedAddressChallenges a ch = true) ∧
    (∀ wid addr cid challenge hash nonce dev sh oc roc rs rem,
      solvedHas (scanHashStep s wid addr cid challenge hash nonce dev sh
        oc roc rs rem).1.solvedAddressChallenges a ch = true ∨
      (a = addr.bech32 ∧ ch = cid ∧
        ∃ vc, s.currentChallenge = some vc ∧
          vc.difficulty ≠ challenge.difficulty ∧
          matchesDifficulty hash vc.difficulty = false)) := by
  refine ⟨?_, ?_, ?_, ?_, ?_, ?_, ?_⟩
  · unfold challengeTransitionCleanup
    split <;> simpa using h
  · simpa [hourlyRestartCleanup] using h
  · intro cid
    simpa [loadChallengeState] using h
  · exact loadSubmittedSolutions_solved_mono s a ch h
  · intro w now o
    by_cases hr : s.isRunning
    · simpa [startOrch, hr] using h
    · unfold startOrch
      rw [if_neg hr]
      have h2 := loadSubmittedSolutions_solved_mono
        ({ s with walletLoaded := true, addresses := w }) a ch
        (by simpa using h)
      by_cases hp : hasValidAddressPool
          (loadSubmittedSolutions
            { s with walletLoaded := true, addresses := w }).devFee
      · simpa [hp] using h2
      · simpa [hp] using h2
  · intro addr cid nonce hash dev oc roc rs rem
    exact submitSolution_solved_mono s addr cid nonce hash dev oc roc rs
      rem a ch h
  · intro wid addr cid challenge hash nonce dev sh oc roc rs rem
    exact scanHashStep_solved s wid addr cid challenge hash nonce dev sh
      oc roc rs rem a ch h

/-- The held snapshot of the C2 counterexample: same challenge, difficulty
tightened from `0f` to `07`, other mutable fields unchanged. -/
def strictCh : Challenge :=
  { challenge_id := "C1", difficulty := "07", latest_submission := "L1",
    no_pre_mine := "P", no_pre_mine_hour := "H" }

/-- An orchestrator holding the tightened snapshot with `(a1, C1)` already
in the solved set. -/
def c2State : OrchState :=
  { baseState with
    isRunning := true, isMining := true, walletLoaded := true,
    currentChallengeId := some "C1", currentChallenge := some strictCh,
    solvedAddressChallenges := [("a1", ["C1"])] }

/-- The scan step of the C2 counterexample: hash `0f` meets the frozen
mask `0f` but not the tightened mask `07`. -/
def c2Run : OrchState × StepResult :=
  scanHashStep c2State 0 addrA "C1" frozenCh "0f" "n1" false "00"
    dupResponse dupResponse true ""

/-- Counterexample to C2 as stated: `(a1, C1)` is in the solved set, and
the difficulty-change discard of the scan step removes it. -/
theorem solved_pair_removed_by_discard :
    solvedHas c2State.solvedAddressChallenges "a1" "C1" = true ∧
    c2Run.2 = .nextHash ∧
    solvedHas c2Run.1.solvedAddressChallenges "a1" "C1" = false := by
  decide

/-- Witness for C2's amended theorem at a concrete state holding a solved
pair. -/
theorem solvedSet_monotone_witness :
    solvedHas
      (challengeTransitionCleanup c2State).1.solvedAddressChallenges
      "a1" "C1" = true ∧
    solvedHas
      (hourlyRestartCleanup c2State).1.solvedAddressChallenges "a1" "C1"
      = true ∧
    (∀ cid, solvedHas
      (loadChallengeState c2State cid).solvedAddressChallenges "a1" "C1"
      = true) ∧
    solvedHas
      (loadSubmittedSolutions c2State).solvedAddressChallenges "a1" "C1"
      = true ∧
    (∀ w now o, solvedHas
      (startOrch c2State w now o).1.solvedAddressChallenges "a1" "C1"
      = true) ∧
    (∀ addr cid nonce hash dev oc roc rs rem, solvedHas
      (submitSolution c2State addr cid nonce hash dev oc roc rs
        rem).1.solvedAddressChallenges "a1" "C1" = true) ∧
    (∀ wid addr cid challenge hash nonce dev sh oc roc rs rem,
      solvedHas (scanHashStep c2State wid addr cid challenge hash nonce
        dev sh oc roc rs rem).1.solvedAddressChallenges "a1" "C1" = true ∨
      ("a1" = addr.bech32 ∧ "C1" = cid ∧
        ∃ vc, c2State.currentChallenge = some vc ∧
          vc.difficulty ≠ challenge.difficulty ∧
          matchesDifficulty hash vc.difficulty = false)) :=
  solvedSet_monotone_except_discard "a1" "C1" c2State (by decide)

end Miner
